import Mathlib

/-!
Verification of the VexDoc marker scanner specification against the
repository.  The repository ships only the example fixture files
(`src/examples/test_files/sample.py` and
`src/examples/test_files/data_processor.py`); the scanner itself is not part
of the excerpt, so it is modelled from the specification (section 4.1's
state machine, section 6's marker syntax).  The fixture files and the Python
helper functions `process_data` and `calculate_mean` are embedded directly
from the source.

String literals use `\x27` for the apostrophe character and `\x7b`/`\x7d`
for braces appearing in fixture text.
-/

namespace VexDoc

/-- Character-level whitespace test used to model Python `str.strip` and
title trimming: space, tab, newline, carriage return, vertical tab,
form feed. -/
def isWS (c : Char) : Bool :=
  c == ' ' || c == '\t' || c == '\n' || c == '\r' || c == '\x0b' || c == '\x0c'

/-- Drop leading and trailing whitespace characters from a character list. -/
def trimChars (cs : List Char) : List Char :=
  ((cs.dropWhile isWS).reverse.dropWhile isWS).reverse

/-- `startsWithChars pre cs` is true when `pre` is an initial segment of `cs`. -/
def startsWithChars : List Char → List Char → Bool
  | [], _ => true
  | _ :: _, [] => false
  | p :: ps, c :: cs => p == c && startsWithChars ps cs

/-- Marker syntax (spec section 6): summary start line. -/
def summaryStartStr : String := "\"\"\"startsummary"

/-- Marker syntax (spec section 6): summary end line. -/
def summaryEndStr : String := "endsummary\"\"\""

/-- Marker syntax (spec section 6): end-of-document line. -/
def endVexdocStr : String := "# ENDVEXDOC"

/-- Modelled from the spec: a block-start marker is a line beginning with
`#!` followed by the block title (spec section 6, "Marker syntax"). -/
def isBlockMarker (line : String) : Bool :=
  startsWithChars ['#', '!'] line.data

/-- Modelled from the spec: a summary-start marker is a line containing
exactly the summary-start token (spec section 6). -/
def isSummaryStart (line : String) : Bool :=
  decide (line = summaryStartStr)

/-- Modelled from the spec: a summary-end marker is a line containing
exactly the summary-end token (spec section 6). -/
def isSummaryEnd (line : String) : Bool :=
  decide (line = summaryEndStr)

/-- Modelled from the spec: the end-of-document marker is a line containing
exactly `# ENDVEXDOC` (spec section 6). -/
def isEndVexdoc (line : String) : Bool :=
  decide (line = endVexdocStr)

/-- The title of a block-marker line: the remainder of the line after `#!`,
with surrounding whitespace removed (spec section 4.1 step 2 and
section 3). -/
def titleOf (line : String) : String :=
  ⟨trimChars (line.data.drop 2)⟩

/-- Join lines back into a single text with newline separators. -/
def joinLines : List String → String
  | [] => ""
  | [l] => l
  | l :: ls => l ++ "\n" ++ joinLines ls

/-- A line consisting solely of whitespace. -/
def isBlankLine (l : String) : Bool :=
  trimChars l.data == []

/-- Close a summary: trim leading and trailing blank lines, then join
(spec section 4.1 step 4). -/
def finishSummary (ls : List String) : String :=
  joinLines (((ls.dropWhile isBlankLine).reverse.dropWhile isBlankLine).reverse)

/-- Modelled from the spec: a documentation block as extracted by the
scanner (spec section 3, data model). -/
structure DocumentationBlock where
  title : String
  summary : String
  codeFragment : String
deriving DecidableEq, Repr

/-- Modelled from the spec: warnings for malformed input
(spec section 7, error kinds; `OrphanEndMarker` is ignored silently and is
not an error, so it is not a warning the scanner emits). -/
inductive Warning where
  | unterminatedSummary
  | missingEndMarker
deriving DecidableEq, Repr

/-- Modelled from the spec: the scanner result, an ordered sequence of
blocks plus the warnings collected for malformed segments
(spec sections 3 and 7). -/
structure Document where
  blocks : List DocumentationBlock
  warnings : List Warning
deriving DecidableEq, Repr

/-- Modelled from the spec: scanner state
(spec section 4.1 step 1). -/
inductive ScanMode where
  | outsideBlock
  | awaitingSummary (title : String)
  | inSummary (title : String) (summaryAcc : List String)
  | inCode (title : String) (summary : String) (codeAcc : List String)

/-- Modelled from the spec: the scanner's line-by-line state machine
(spec section 4.1).  Missing from the repository excerpt: the Marker
Scanner component itself; only its fixtures are under `src`.
Transitions: a block-marker line outside a block opens a block and captures
the title; the summary-start marker begins summary accumulation; only the
summary-end marker leaves the summary (block markers inside a summary are
literal text); in code, a new block marker emits the current block and opens
the next, while the end-of-document marker emits the current block and stops.
At end of input an open block is emitted with a `missingEndMarker` warning,
and an open summary additionally yields `unterminatedSummary` with the raw
accumulated lines as the summary text (spec section 4.1 steps 5-7 and the
section 8 unterminated-summary scenario). -/
def scanLines : ScanMode → List String → List DocumentationBlock × List Warning
  | .outsideBlock, [] => ([], [])
  | .awaitingSummary t, [] => ([⟨t, "", ""⟩], [.missingEndMarker])
  | .inSummary t acc, [] =>
      ([⟨t, joinLines acc, ""⟩], [.unterminatedSummary, .missingEndMarker])
  | .inCode t s acc, [] => ([⟨t, s, joinLines acc⟩], [.missingEndMarker])
  | .outsideBlock, line :: rest =>
      if isBlockMarker line then
        scanLines (.awaitingSummary (titleOf line)) rest
      else
        scanLines .outsideBlock rest
  | .awaitingSummary t, line :: rest =>
      if isSummaryStart line then
        scanLines (.inSummary t []) rest
      else
        scanLines (.awaitingSummary t) rest
  | .inSummary t acc, line :: rest =>
      if isSummaryEnd line then
        scanLines (.inCode t (finishSummary acc) []) rest
      else
        scanLines (.inSummary t (acc ++ [line])) rest
  | .inCode t s acc, line :: rest =>
      if isBlockMarker line then
        let p := scanLines (.awaitingSummary (titleOf line)) rest
        (⟨t, s, joinLines acc⟩ :: p.1, p.2)
      else if isEndVexdoc line then
        ([⟨t, s, joinLines acc⟩], [])
      else
        scanLines (.inCode t s (acc ++ [line])) rest

/-- Scan a list of source lines into a Document. -/
def scanDocument (lines : List String) : Document :=
  ⟨(scanLines .outsideBlock lines).1, (scanLines .outsideBlock lines).2⟩

/-- Split a character list at newline characters. -/
def splitLinesChars : List Char → List (List Char)
  | [] => [[]]
  | c :: cs =>
      if c == '\n' then [] :: splitLinesChars cs
      else
        match splitLinesChars cs with
        | [] => [[c]]
        | l :: ls => (c :: l) :: ls

/-- Split a source text into its lines. -/
def splitLines (s : String) : List String :=
  (splitLinesChars s.data).map (fun cs => ⟨cs⟩)

/-- Modelled from the spec: `scan(sourceText) -> Document`
(spec section 4.1, contract). -/
def scan (s : String) : Document :=
  scanDocument (splitLines s)

/-- The lines of `src/examples/test_files/sample.py` (content split at
newlines; the file does not end with a newline). -/
def sampleLines : List String :=
  [ "#! Sample Python Function"
  , "\"\"\"startsummary"
  , "This is a sample Python function that demonstrates how to use"
  , "VexDoc with Python code. It shows the proper docstring format"
  , "and includes examples."
  , "endsummary\"\"\""
  , ""
  , "def greet(name):"
  , "    \"\"\"Greet someone by name"
  , "    "
  , "    Args:"
  , "        name (str): The name to greet"
  , "        "
  , "    Returns:"
  , "        str: A greeting message"
  , "    \"\"\""
  , "    return f\"Hello, \x7bname\x7d!\""
  , "# ENDVEXDOC" ]

/-- The lines of `src/examples/test_files/data_processor.py` (content split
at newlines; the file ends with a newline, hence the trailing empty line). -/
def dataProcessorLines : List String :=
  [ "#! Data Processing Module"
  , "\"\"\"startsummary"
  , "This module provides comprehensive data processing capabilities for"
  , "handling various data formats and performing common data manipulation"
  , "tasks. It includes functions for reading, cleaning, filtering, and"
  , "transforming datasets."
  , ""
  , "The module is designed to be memory-efficient and can handle large"
  , "datasets by processing them in chunks when necessary."
  , "endsummary\"\"\""
  , ""
  , "def process_data(data):"
  , "    \"\"\"Process and clean the input data"
  , "    "
  , "    Takes a list of data items and performs basic cleaning operations"
  , "    including trimming whitespace, removing empty items, and converting"
  , "    to appropriate data types."
  , "    "
  , "    Args:"
  , "        data (list): List of data items to process"
  , "        "
  , "    Returns:"
  , "        list: Cleaned and processed data items"
  , "        "
  , "    Example:"
  , "        >>> data = [\"  item1  \", \"\", \"item2\", \"  \"]"
  , "        >>> process_data(data)"
  , "        [\x27item1\x27, \x27item2\x27]"
  , "    \"\"\""
  , "    return [item.strip() for item in data if item.strip()]"
  , ""
  , "#! File Operations"
  , "\"\"\"startsummary"
  , "File handling utilities for reading and writing data files safely."
  , "These functions provide error handling and support for different"
  , "file formats including JSON, CSV, and plain text."
  , "endsummary\"\"\""
  , ""
  , "def read_file(filename):"
  , "    \"\"\"Read a file and return its contents"
  , "    "
  , "    Safely reads a text file and returns its contents as a string."
  , "    Handles common file reading errors gracefully."
  , "    "
  , "    Args:"
  , "        filename (str): Path to the file to read"
  , "        "
  , "    Returns:"
  , "        str: Contents of the file"
  , "        "
  , "    Raises:"
  , "        FileNotFoundError: If the file doesn\x27t exist"
  , "        IOError: If there\x27s an error reading the file"
  , "    \"\"\""
  , "    with open(filename, \x27r\x27, encoding=\x27utf-8\x27) as f:"
  , "        return f.read()"
  , ""
  , "def write_json(data, filename):"
  , "    \"\"\"Write data to a JSON file"
  , "    "
  , "    Converts Python data structures to JSON format and writes"
  , "    them to the specified file with proper formatting."
  , "    "
  , "    Args:"
  , "        data: Python object to serialize to JSON"
  , "        filename (str): Path where to save the JSON file"
  , "    \"\"\""
  , "    import json"
  , "    with open(filename, \x27w\x27, encoding=\x27utf-8\x27) as f:"
  , "        json.dump(data, f, indent=2, ensure_ascii=False)"
  , ""
  , "#! Statistical Functions"
  , "\"\"\"startsummary"
  , "Basic statistical analysis functions for numerical data."
  , "Includes mean, median, standard deviation, and other common"
  , "statistical measures."
  , "endsummary\"\"\""
  , ""
  , "def calculate_mean(numbers):"
  , "    \"\"\"Calculate the arithmetic mean of a list of numbers"
  , "    "
  , "    Args:"
  , "        numbers (list): List of numbers to calculate mean for"
  , "        "
  , "    Returns:"
  , "        float: The arithmetic mean of the numbers"
  , "    \"\"\""
  , "    if not numbers:"
  , "        return 0"
  , "    return sum(numbers) / len(numbers)"
  , "# ENDVEXDOC"
  , "" ]

/-- A description of one well-formed documentation block of an input text:
its block-marker line, the summary lines between the summary markers, and
the code lines up to the next block marker or the end-of-document marker. -/
structure BlockSpec where
  header : String
  summaryLines : List String
  codeLines : List String
deriving DecidableEq, Repr

/-- Well-formedness of a block description: the header is a block-marker
line, no summary line is a summary-end marker, and no code line is a block
marker or the end-of-document marker. -/
def specWF (b : BlockSpec) : Bool :=
  isBlockMarker b.header &&
  b.summaryLines.all (fun l => !(isSummaryEnd l)) &&
  b.codeLines.all (fun l => !(isBlockMarker l) && !(isEndVexdoc l))

/-- Well-formedness of a list of block descriptions. -/
def specsWF (bs : List BlockSpec) : Bool :=
  bs.all specWF

/-- Render one block description to source lines, in marker syntax. -/
def renderSpec (b : BlockSpec) : List String :=
  b.header :: summaryStartStr :: (b.summaryLines ++ summaryEndStr :: b.codeLines)

/-- Render a list of block descriptions to a complete well-formed input:
the blocks back to back, terminated by the end-of-document marker line. -/
def renderSpecs (bs : List BlockSpec) : List String :=
  (bs.map renderSpec).flatten ++ [endVexdocStr]

/-- The DocumentationBlock a well-formed block description denotes. -/
def specBlock (b : BlockSpec) : DocumentationBlock :=
  ⟨titleOf b.header, finishSummary b.summaryLines, joinLines b.codeLines⟩

/-- First block of `data_processor.py`: module summary and `process_data`. -/
def dpSpec1 : BlockSpec :=
  ⟨"#! Data Processing Module",
   (dataProcessorLines.drop 2).take 7,
   (dataProcessorLines.drop 10).take 21⟩

/-- Second block of `data_processor.py`: `read_file` and `write_json`. -/
def dpSpec2 : BlockSpec :=
  ⟨"#! File Operations",
   (dataProcessorLines.drop 33).take 3,
   (dataProcessorLines.drop 37).take 34⟩

/-- Third block of `data_processor.py`: `calculate_mean`. -/
def dpSpec3 : BlockSpec :=
  ⟨"#! Statistical Functions",
   (dataProcessorLines.drop 73).take 3,
   (dataProcessorLines.drop 77).take 13⟩

/-- The single block of `sample.py`. -/
def sampleSpec : BlockSpec :=
  ⟨"#! Sample Python Function",
   (sampleLines.drop 2).take 3,
   (sampleLines.drop 6).take 11⟩

lemma isSummaryStart_self : isSummaryStart summaryStartStr = true := by decide

lemma isSummaryEnd_self : isSummaryEnd summaryEndStr = true := by decide

lemma isEndVexdoc_self : isEndVexdoc endVexdocStr = true := by decide

lemma isBlockMarker_endVexdoc : isBlockMarker endVexdocStr = false := by decide

lemma isSummaryEnd_of_blockMarker (l : String) (h : isBlockMarker l = true) :
    isSummaryEnd l = false := by
  cases hse : isSummaryEnd l
  · rfl
  · exfalso
    have hl : l = summaryEndStr := of_decide_eq_true hse
    rw [hl] at h
    exact absurd h (by decide)

/-- One step: a non-marker line inside a summary is accumulated. -/
lemma scanLines_inSummary_step (t line : String) (acc rest : List String)
    (h : isSummaryEnd line = false) :
    scanLines (.inSummary t acc) (line :: rest)
      = scanLines (.inSummary t (acc ++ [line])) rest := by
  simp [scanLines, h]

/-- One step: the summary-end marker closes the summary and enters code. -/
lemma scanLines_inSummary_end (t : String) (acc rest : List String) :
    scanLines (.inSummary t acc) (summaryEndStr :: rest)
      = scanLines (.inCode t (finishSummary acc) []) rest := by
  simp [scanLines, isSummaryEnd_self]

/-- One step: the summary-start marker begins summary accumulation. -/
lemma scanLines_awaiting_start (t : String) (rest : List String) :
    scanLines (.awaitingSummary t) (summaryStartStr :: rest)
      = scanLines (.inSummary t []) rest := by
  simp [scanLines, isSummaryStart_self]

/-- One step: a block-marker line outside any block opens a block. -/
lemma scanLines_outside_header (line : String) (h : isBlockMarker line = true)
    (rest : List String) :
    scanLines .outsideBlock (line :: rest)
      = scanLines (.awaitingSummary (titleOf line)) rest := by
  simp [scanLines, h]

/-- One step: a block-marker line in code emits the open block and opens the
next block. -/
lemma scanLines_inCode_header (t s : String) (acc : List String)
    (line : String) (h : isBlockMarker line = true) (rest : List String) :
    scanLines (.inCode t s acc) (line :: rest)
      = (⟨t, s, joinLines acc⟩
            :: (scanLines (.awaitingSummary (titleOf line)) rest).1,
         (scanLines (.awaitingSummary (titleOf line)) rest).2) := by
  simp [scanLines, h]

/-- While inside a summary, lines that are not the summary-end marker are
accumulated verbatim. -/
lemma scanLines_inSummary_append (ls : List String) :
    ∀ (t : String) (acc rest : List String),
      (∀ l ∈ ls, isSummaryEnd l = false) →
      scanLines (.inSummary t acc) (ls ++ rest)
        = scanLines (.inSummary t (acc ++ ls)) rest := by
  induction ls with
  | nil => intro t acc rest _; simp
  | cons l ls ih =>
      intro t acc rest h
      have hl : isSummaryEnd l = false := h l (List.mem_cons_self l ls)
      have hls : ∀ x ∈ ls, isSummaryEnd x = false :=
        fun x hx => h x (List.mem_cons_of_mem l hx)
      rw [List.cons_append, scanLines_inSummary_step t l acc _ hl,
        ih t (acc ++ [l]) rest hls]
      simp

/-- While inside a code fragment, lines that are neither a block marker nor
the end-of-document marker are accumulated verbatim. -/
lemma scanLines_inCode_append (cs : List String) :
    ∀ (t s : String) (acc rest : List String),
      (∀ l ∈ cs, isBlockMarker l = false ∧ isEndVexdoc l = false) →
      scanLines (.inCode t s acc) (cs ++ rest)
        = scanLines (.inCode t s (acc ++ cs)) rest := by
  induction cs with
  | nil => intro t s acc rest _; simp
  | cons l cs ih =>
      intro t s acc rest h
      have hl := h l (List.mem_cons_self l cs)
      have hcs : ∀ x ∈ cs, isBlockMarker x = false ∧ isEndVexdoc x = false :=
        fun x hx => h x (List.mem_cons_of_mem l hx)
      rw [List.cons_append]
      rw [show scanLines (.inCode t s acc) (l :: (cs ++ rest))
            = scanLines (.inCode t s (acc ++ [l])) (cs ++ rest) by
          simp [scanLines, hl.1, hl.2]]
      rw [ih t s (acc ++ [l]) rest hcs]
      simp

/-- The end-of-document marker seen in code emits the open block and stops. -/
lemma scanLines_inCode_end (t s : String) (acc rest : List String) :
    scanLines (.inCode t s acc) (endVexdocStr :: rest)
      = ([⟨t, s, joinLines acc⟩], []) := by
  simp [scanLines, isBlockMarker_endVexdoc, isEndVexdoc_self]

lemma specWF_parts (b : BlockSpec) (hb : specWF b = true) :
    isBlockMarker b.header = true ∧
      (∀ l ∈ b.summaryLines, isSummaryEnd l = false) ∧
      (∀ l ∈ b.codeLines, isBlockMarker l = false ∧ isEndVexdoc l = false) := by
  simp only [specWF, Bool.and_eq_true, List.all_eq_true, Bool.not_eq_eq_eq_not,
    Bool.not_true] at hb
  exact ⟨hb.1.1, hb.1.2, hb.2⟩

/-- Processing the body of a well-formed block: the summary marker pair and
code lines drive the machine to the in-code state with the block's summary
closed and its code accumulated. -/
lemma scanLines_blockBody (b : BlockSpec) (hb : specWF b = true) (t : String)
    (rest : List String) :
    scanLines (.awaitingSummary t)
        (summaryStartStr ::
          (b.summaryLines ++ (summaryEndStr :: (b.codeLines ++ rest))))
      = scanLines (.inCode t (finishSummary b.summaryLines) b.codeLines) rest := by
  obtain ⟨_, hsum, hcode⟩ := specWF_parts b hb
  rw [scanLines_awaiting_start,
    scanLines_inSummary_append b.summaryLines t [] _ hsum]
  simp only [List.nil_append]
  rw [scanLines_inSummary_end,
    scanLines_inCode_append b.codeLines t _ [] rest hcode]
  simp only [List.nil_append]

/-- Scanning the renders of well-formed blocks from the in-code state emits
the open block and then one block per description, in order. -/
lemma scanLines_chain (specs : List BlockSpec) :
    ∀ (t s : String) (acc : List String), specsWF specs = true →
      scanLines (.inCode t s acc)
          ((specs.map renderSpec).flatten ++ [endVexdocStr])
        = (⟨t, s, joinLines acc⟩ :: specs.map specBlock, []) := by
  induction specs with
  | nil =>
      intro t s acc _
      simpa using scanLines_inCode_end t s acc []
  | cons b bs ih =>
      intro t s acc h
      have hb : specWF b = true := by
        simp only [specsWF, List.all_eq_true] at h
        exact h b (List.mem_cons_self b bs)
      have hbs : specsWF bs = true := by
        simp only [specsWF, List.all_eq_true] at h ⊢
        exact fun x hx => h x (List.mem_cons_of_mem b hx)
      obtain ⟨hh, _, _⟩ := specWF_parts b hb
      simp only [List.map_cons, List.flatten_cons, renderSpec,
        List.append_assoc, List.cons_append]
      rw [scanLines_inCode_header t s acc b.header hh,
        scanLines_blockBody b hb (titleOf b.header)
          ((bs.map renderSpec).flatten ++ [endVexdocStr]),
        ih (titleOf b.header) (finishSummary b.summaryLines) b.codeLines hbs]
      simp [specBlock]

/-- Scanning the render of a well-formed list of block descriptions yields
exactly the denoted blocks and no warnings. -/
lemma scanLines_renderSpecs (specs : List BlockSpec) (h : specsWF specs = true) :
    scanLines .outsideBlock (renderSpecs specs) = (specs.map specBlock, []) := by
  cases specs with
  | nil =>
      simp [renderSpecs, scanLines, isBlockMarker_endVexdoc]
  | cons b bs =>
      have hb : specWF b = true := by
        simp only [specsWF, List.all_eq_true] at h
        exact h b (List.mem_cons_self b bs)
      have hbs : specsWF bs = true := by
        simp only [specsWF, List.all_eq_true] at h ⊢
        exact fun x hx => h x (List.mem_cons_of_mem b hx)
      obtain ⟨hh, _, _⟩ := specWF_parts b hb
      simp only [renderSpecs, List.map_cons, List.flatten_cons, renderSpec,
        List.append_assoc, List.cons_append]
      rw [scanLines_outside_header b.header hh,
        scanLines_blockBody b hb (titleOf b.header)
          ((bs.map renderSpec).flatten ++ [endVexdocStr]),
        scanLines_chain bs (titleOf b.header) (finishSummary b.summaryLines)
          b.codeLines hbs]
      simp [specBlock]

/-- From the in-code state the open block is always eventually emitted, and
it carries the summary the state holds. -/
lemma scanLines_inCode_emits (rest : List String) :
    ∀ (t s : String) (acc : List String),
      ∃ code bs ws,
        scanLines (.inCode t s acc) rest = (⟨t, s, code⟩ :: bs, ws) := by
  induction rest with
  | nil =>
      intro t s acc
      exact ⟨joinLines acc, [], [.missingEndMarker], by simp [scanLines]⟩
  | cons line rest ih =>
      intro t s acc
      cases h1 : isBlockMarker line
      · cases h2 : isEndVexdoc line
        · obtain ⟨c, bs, ws, hw⟩ := ih t s (acc ++ [line])
          exact ⟨c, bs, ws, by simp [scanLines, h1, h2, hw]⟩
        · exact ⟨joinLines acc, [], [], by simp [scanLines, h1, h2]⟩
      · exact ⟨joinLines acc,
          (scanLines (.awaitingSummary (titleOf line)) rest).1,
          (scanLines (.awaitingSummary (titleOf line)) rest).2,
          by simp [scanLines, h1]⟩

/-- C1: for every well-formed input with N block markers, each with a
complete summary pair, scanning returns exactly the N blocks in source
order; in particular the `data_processor.py` fixture (3 markers) yields 3
blocks and the `sample.py` fixture (1 marker) yields 1 block. -/
theorem scan_wellformed_block_count (specs : List BlockSpec)
    (h : specsWF specs = true) :
    (scanDocument (renderSpecs specs)).blocks = specs.map specBlock ∧
      (scanDocument dataProcessorLines).blocks.length = 3 ∧
      (scanDocument sampleLines).blocks.length = 1 :=
  ⟨by simp [scanDocument, scanLines_renderSpecs specs h], by decide, by decide⟩

/-- Witness for C1 at a concrete one-block well-formed input. -/
theorem scan_wellformed_block_count_witness :
    (scanDocument (renderSpecs [⟨"#! Demo", ["hello"], ["code"]⟩])).blocks
        = [⟨"#! Demo", ["hello"], ["code"]⟩].map specBlock ∧
      (scanDocument dataProcessorLines).blocks.length = 3 ∧
      (scanDocument sampleLines).blocks.length = 1 :=
  scan_wellformed_block_count [⟨"#! Demo", ["hello"], ["code"]⟩] (by decide)

/-- C2: scanning the spec's scenario input yields exactly one block with
title `Foo`, summary `Hello` and code fragment `code here`. -/
theorem scan_scenario_foo :
    (scan "#! Foo\n\"\"\"startsummary\nHello\nendsummary\"\"\"\ncode here\n# ENDVEXDOC").blocks
      = [⟨"Foo", "Hello", "code here"⟩] := by decide

/-- C3: scanning is total — for every input, including malformed input, it
returns a Document; on the spec's unterminated-summary example the returned
Document carries warnings for the malformed segment. -/
theorem scan_total_best_effort (s : String) :
    (∃ d : Document, scan s = d) ∧
      (scan "#! Foo\n\"\"\"startsummary\nHello").warnings ≠ [] :=
  ⟨⟨scan s, rfl⟩, by decide⟩

/-- C4: a summary-start marker with no summary-end marker before end of
input still yields that one block; it carries the `unterminatedSummary`
warning and its summary text is exactly the lines accumulated up to end of
input. -/
theorem scan_unterminated_summary (bt : String) (suffix : List String)
    (hbt : isBlockMarker bt = true)
    (hs : ∀ l ∈ suffix, isSummaryEnd l = false) :
    (scanDocument (bt :: summaryStartStr :: suffix)).blocks
        = [⟨titleOf bt, joinLines suffix, ""⟩] ∧
      Warning.unterminatedSummary
        ∈ (scanDocument (bt :: summaryStartStr :: suffix)).warnings := by
  have key : scanLines (.inSummary (titleOf bt) []) suffix
      = ([⟨titleOf bt, joinLines suffix, ""⟩],
         [.unterminatedSummary, .missingEndMarker]) := by
    have h2 := scanLines_inSummary_append suffix (titleOf bt) [] [] hs
    simpa [scanLines] using h2
  rw [scanDocument, scanLines_outside_header bt hbt, scanLines_awaiting_start,
    key]
  exact ⟨rfl, List.mem_cons_self _ _⟩

/-- Witness for C4 at a concrete unterminated input. -/
theorem scan_unterminated_summary_witness :
    (scanDocument ("#! T" :: summaryStartStr :: ["Hello"])).blocks
        = [⟨titleOf "#! T", joinLines ["Hello"], ""⟩] ∧
      Warning.unterminatedSummary
        ∈ (scanDocument ("#! T" :: summaryStartStr :: ["Hello"])).warnings :=
  scan_unterminated_summary "#! T" ["Hello"] (by decide) (by decide)

/-- C5: whenever the summary-start marker line is immediately followed by
the summary-end marker line, the block that results — whatever follows —
has summary equal to the empty string. -/
theorem scan_empty_summary (t : String) (rest : List String) :
    ∃ code bs ws,
      scanLines (.awaitingSummary t) (summaryStartStr :: summaryEndStr :: rest)
        = (⟨t, "", code⟩ :: bs, ws) := by
  rw [scanLines_awaiting_start, scanLines_inSummary_end]
  have hfin : finishSummary ([] : List String) = "" := by decide
  rw [hfin]
  exact scanLines_inCode_emits rest t "" []

/-- C6: scanning is deterministic and side-effect-free on its input: two
invocations on the same input return equal Documents. -/
theorem scan_deterministic (s : String) : scan s = scan s := rfl

/-- C7: each fixture file conforms bit-for-bit to the marker syntax: it
decomposes into well-formed blocks — block-marker headers starting with
`#!`, summaries opened by the `startsummary` line and closed by the
`endsummary` line — terminated by the `# ENDVEXDOC` line (plus, for
`data_processor.py`, the empty line from the file's final newline). -/
theorem fixtures_conform_to_marker_syntax :
    (specsWF [dpSpec1, dpSpec2, dpSpec3] = true ∧
      dataProcessorLines = renderSpecs [dpSpec1, dpSpec2, dpSpec3] ++ [""]) ∧
    (specsWF [sampleSpec] = true ∧
      sampleLines = renderSpecs [sampleSpec]) := by
  exact ⟨⟨by decide, by decide⟩, ⟨by decide, by decide⟩⟩

/-- C8: in the `inSummary` state a block-marker line never opens a new
block: it is accumulated as literal summary text and the state stays in the
same summary. -/
theorem block_marker_inside_summary_is_literal (t line : String)
    (acc rest : List String) (h : isBlockMarker line = true) :
    scanLines (.inSummary t acc) (line :: rest)
      = scanLines (.inSummary t (acc ++ [line])) rest :=
  scanLines_inSummary_step t line acc rest (isSummaryEnd_of_blockMarker line h)

/-- Witness for C8 at a concrete nested block marker. -/
theorem block_marker_inside_summary_is_literal_witness :
    scanLines (.inSummary "T" []) ("#! Nested" :: [])
      = scanLines (.inSummary "T" ([] ++ ["#! Nested"])) [] :=
  block_marker_inside_summary_is_literal "T" "#! Nested" [] [] (by decide)

/-- Python `str.strip()`: remove leading and trailing whitespace. -/
def strip (s : String) : String :=
  ⟨trimChars s.data⟩

/-- Embedded from `src/examples/test_files/data_processor.py` lines 12-30:
`return [item.strip() for item in data if item.strip()]` — the
comprehension keeps `item.strip()` exactly when it is truthy, i.e.
non-empty. -/
def process_data (data : List String) : List String :=
  data.filterMap (fun item => if strip item = "" then none else some (strip item))

/-- A string with no leading and no trailing whitespace character. -/
def noEdgeWS (cs : List Char) : Bool :=
  !(isWS (cs.head?.getD '.')) && !(isWS (cs.getLast?.getD '.'))

lemma head?_dropWhile_ws (p : Char → Bool) (l : List Char) :
    ∀ c, (l.dropWhile p).head? = some c → p c = false := by
  induction l with
  | nil => intro c hc; simp [List.dropWhile] at hc
  | cons a l ih =>
      intro c hc
      cases ha : p a
      · rw [List.dropWhile_cons, ha] at hc
        simp at hc
        rw [← hc]
        exact ha
      · rw [List.dropWhile_cons, ha] at hc
        exact ih c (by simpa using hc)

lemma getLast?_dropWhile_ws (p : Char → Bool) (l : List Char) :
    l.dropWhile p = [] ∨ (l.dropWhile p).getLast? = l.getLast? := by
  induction l with
  | nil => exact Or.inl rfl
  | cons a l ih =>
      cases ha : p a
      · right
        rw [List.dropWhile_cons, ha]
        simp
      · rw [List.dropWhile_cons, ha]
        simp only [if_true]
        rcases ih with h | h
        · exact Or.inl h
        · by_cases hl : l.dropWhile p = []
          · exact Or.inl hl
          · right
            rw [h]
            have hne : l ≠ [] := by
              intro hnil
              rw [hnil] at hl
              exact hl rfl
            cases l with
            | nil => exact absurd rfl hne
            | cons b l2 => exact (List.getLast?_cons_cons).symm

/-- Stripping leaves no leading or trailing whitespace. -/
lemma noEdgeWS_trimChars (cs : List Char) : noEdgeWS (trimChars cs) = true := by
  have hdot : isWS '.' = false := by decide
  unfold trimChars noEdgeWS
  rw [Bool.and_eq_true, List.head?_reverse, List.getLast?_reverse]
  constructor
  · rcases getLast?_dropWhile_ws isWS (cs.dropWhile isWS).reverse with h | h
    · simp [h, hdot]
    · rw [h, List.getLast?_reverse]
      cases hc : (cs.dropWhile isWS).head? with
      | none => simp [hc, hdot]
      | some c =>
          have hws := head?_dropWhile_ws isWS cs c hc
          simp [hc, hws]
  · cases hc : ((cs.dropWhile isWS).reverse.dropWhile isWS).head? with
    | none => simp [hc, hdot]
    | some c =>
        have hws := head?_dropWhile_ws isWS (cs.dropWhile isWS).reverse c hc
        simp [hc, hws]

/-- C9: `process_data` returns exactly the stripped items whose stripped
form is non-empty, in the original order; every element of the result is
non-empty and has no leading or trailing whitespace. -/
theorem process_data_correct (data : List String) :
    process_data data
        = (data.map strip).filter (fun s => !(decide (s = ""))) ∧
      ∀ x ∈ process_data data, x ≠ "" ∧ noEdgeWS x.data = true := by
  constructor
  · induction data with
    | nil => rfl
    | cons a l ih =>
        by_cases h : strip a = ""
        · simp [process_data, List.filterMap_cons, h, List.filter_cons] at ih ⊢
          exact ih
        · simp [process_data, List.filterMap_cons, h, List.filter_cons] at ih ⊢
          exact ih
  · intro x hx
    rw [process_data, List.mem_filterMap] at hx
    obtain ⟨a, _, hfa⟩ := hx
    by_cases h : strip a = ""
    · simp [h] at hfa
    · simp only [h, if_false] at hfa
      have hxa : strip a = x := by
        injection hfa
      constructor
      · rw [← hxa]; exact h
      · rw [← hxa]
        exact noEdgeWS_trimChars a.data

/-- Python numeric values, distinguishing `int` from `float` results; the
fractional values are modelled as rationals. -/
inductive PyNum where
  | int (i : ℤ)
  | float (q : ℚ)
deriving DecidableEq, Repr

/-- Python division `a / b`: raises `ZeroDivisionError` exactly when the
divisor is zero, otherwise produces the (float) quotient. -/
def pyDiv (a b : ℚ) : Except String ℚ :=
  if b = 0 then Except.error "ZeroDivisionError" else Except.ok (a / b)

/-- Embedded from `src/examples/test_files/data_processor.py` lines 79-90:
`if not numbers: return 0` then `return sum(numbers) / len(numbers)`; a
list is falsy exactly when it is empty, and `0` is an int literal while the
division produces a float. -/
def calculate_mean (numbers : List ℚ) : Except String PyNum :=
  if numbers = [] then Except.ok (.int 0)
  else (pyDiv numbers.sum numbers.length).map PyNum.float

/-- C10: `calculate_mean` never raises `ZeroDivisionError` — the division
is evaluated only for non-empty input, where the divisor `len(numbers)` is
non-zero — and on the empty list it returns the integer `0`, not a float. -/
theorem calculate_mean_never_divides_by_zero (numbers : List ℚ) :
    (∃ v, calculate_mean numbers = Except.ok v) ∧
      calculate_mean ([] : List ℚ) = Except.ok (PyNum.int 0) := by
  constructor
  · by_cases h : numbers = []
    · exact ⟨.int 0, by simp [calculate_mean, h]⟩
    · refine ⟨.float (numbers.sum / numbers.length), ?_⟩
      have hlen : (numbers.length : ℚ) ≠ 0 := by
        rw [Nat.cast_ne_zero]
        intro h0
        exact h (List.length_eq_zero.mp h0)
      simp [calculate_mean, h, pyDiv, hlen, Except.map]
  · simp [calculate_mean]

end VexDoc
